import Mathlib

/-!
# Verification of the cross-system comparison core of Migration-Tool-Refactor

Shallow embedding of the reconciliation engine of the repository
(`src/argo_migration`): column-name normalization (`utils/common.py`),
sample-size calculation and deterministic sampling
(`services/comparison/sampling/sampler.py`), SQL filter building
(`services/comparison/sampling/query_builder.py`), batched retrieval with
fail-fast semantics (`services/comparison/sampling/batch_processor.py`),
row-count negligibility analysis
(`services/comparison/row_count_comparator.py`) and the overall-match
aggregation (`services/comparison/dataset_comparator.py`,
`services/comparison/schema_comparator.py`).

Python strings are modelled as Lean `String`/`List Char` with ASCII
case mapping, machine integers as `Nat`/`Int`, Python `float` arithmetic
as exact rational arithmetic (`ℚ`), pandas NaN/None cells as an explicit
`null` constructor, and raised exceptions as `Except`.
-/

namespace ArgoMigration

/-! ## Column-name normalization (`utils/common.py`, `transform_column_name`)

The Python function lowercases the name, rewrites the token `no.` (at a word
boundary, with trailing whitespace) to `number_`, replaces `#` by `number`
and `&` by `and`, maps the separators `(`, `)`, space, `-`, `/`, `.`, `?`
to `_`, collapses runs of `_`, strips leading/trailing `_`, and uppercases.
-/

/-- ASCII lower-casing, as `str.lower` acts on ASCII letters. -/
def lowerChar (c : Char) : Char :=
  if 'A' ≤ c ∧ c ≤ 'Z' then Char.ofNat (c.toNat + 32) else c

/-- ASCII upper-casing, as `str.upper` acts on ASCII letters. -/
def upperChar (c : Char) : Char :=
  if 'a' ≤ c ∧ c ≤ 'z' then Char.ofNat (c.toNat - 32) else c

/-- ASCII whitespace, as matched by the regex class `\s`. -/
def isSpaceChar (c : Char) : Bool :=
  c = ' ' || c = '\t' || c = '\n' || c = '\r' || c = '\x0b' || c = '\x0c'

/-- ASCII word characters, as matched by the regex class `\w` (used by the
word boundary `\b` in `re.sub(r"\bno\.\s*", "number_", name)`). -/
def isWordChar (c : Char) : Bool :=
  c.isAlphanum || c = '_'

/-- Scanner state for `re.sub(r"\bno\.\s*", "number_", name)`:
either no partial match is pending (recording whether the previous
character was a word character, which decides the word boundary `\b`),
or the scanner has consumed `n` (resp. `no`) at a word boundary, or a
full match was replaced and the scanner is consuming the `\s*` tail. -/
inductive NoScanState : Type
  | plain (prevWord : Bool)
  | seenN
  | seenNO
  | skipSpace
deriving DecidableEq

open NoScanState in
/-- One left-to-right pass of `re.sub(r"\bno\.\s*", "number_", name)`.
A pending `n`/`no` is flushed unchanged when the match fails (no new
match can start inside it, since its characters are word characters);
after a replacement the preceding character (`.` or whitespace) is a
non-word character, so a new match may start immediately. -/
def replaceNoDotAux : NoScanState → List Char → List Char
  | plain _, [] => []
  | seenN, [] => ['n']
  | seenNO, [] => ['n', 'o']
  | skipSpace, [] => []
  | plain b, c :: t =>
      if !b && c = 'n' then replaceNoDotAux seenN t
      else c :: replaceNoDotAux (plain (isWordChar c)) t
  | seenN, c :: t =>
      if c = 'o' then replaceNoDotAux seenNO t
      else 'n' :: c :: replaceNoDotAux (plain (isWordChar c)) t
  | seenNO, c :: t =>
      if c = '.' then "number_".toList ++ replaceNoDotAux skipSpace t
      else 'n' :: 'o' :: c :: replaceNoDotAux (plain (isWordChar c)) t
  | skipSpace, c :: t =>
      if isSpaceChar c then replaceNoDotAux skipSpace t
      else if c = 'n' then replaceNoDotAux seenN t
      else c :: replaceNoDotAux (plain (isWordChar c)) t

/-- `re.sub(r"\bno\.\s*", "number_", name)` on the whole string (string
start is a word boundary). -/
def replaceNoDot (l : List Char) : List Char :=
  replaceNoDotAux (NoScanState.plain false) l

/-- `name.replace("#", "number").replace("&", "and")`. -/
def expandSpecial (c : Char) : List Char :=
  if c = '#' then "number".toList
  else if c = '&' then "and".toList
  else [c]

/-- The separator characters replaced by `_`. -/
def sepChars : List Char := ['(', ')', ' ', '-', '/', '.', '?']

/-- One step of the chained separator `replace` calls. -/
def sepToUnderscore (c : Char) : Char :=
  if c ∈ sepChars then '_' else c

/-- `re.sub(r"_+", "_", name)`: collapse each run of underscores to one
(drop an underscore that is immediately followed by another). -/
def collapseUnderscores : List Char → List Char
  | [] => []
  | c :: t =>
    match t with
    | [] => [c]
    | d :: _ =>
        if c = '_' && d = '_' then collapseUnderscores t
        else c :: collapseUnderscores t

/-- `name.strip("_")`: drop leading and trailing underscores. -/
def stripUnderscores (l : List Char) : List Char :=
  ((l.dropWhile (· = '_')).reverse.dropWhile (· = '_')).reverse

/-- The pipeline of `transform_column_name` before the final upper-casing. -/
def transformCore (l : List Char) : List Char :=
  stripUnderscores (collapseUnderscores
    (((replaceNoDot (l.map lowerChar)).flatMap expandSpecial).map
      sepToUnderscore))

/-- `transform_column_name` from `utils/common.py`. -/
def transform_column_name (s : String) : String :=
  String.mk ((transformCore s.toList).map upperChar)


/-! ## Sample-size calculation (`sampling/sampler.py`,
`SmartSampler.calculate_sample_size`)

The Python float arithmetic is modelled exactly over `ℚ`; `z_score` is the
hard-coded `1.96` (the `confidence_level` argument is never read), `p` is
`0.5`, and the default `margin_of_error` is `0.05`.
`int(math.ceil(x))` on the positive result is `Int.toNat ⌈x⌉`. -/
def calculate_sample_size (total_rows : ℕ) (margin_of_error : ℚ := 5/100) : ℕ :=
  if total_rows ≤ 1000 then
    min total_rows 1000
  else
    let z_score : ℚ := 196/100
    let p : ℚ := 1/2
    let numerator := z_score ^ 2 * p * (1 - p)
    let denominator := margin_of_error ^ 2
    let sample_size₀ := numerator / denominator
    let sample_size₁ := sample_size₀ / (1 + (sample_size₀ - 1) / (total_rows : ℚ))
    min (Int.toNat ⌈sample_size₁⌉) total_rows


/-! ## Row values and key tuples

Cells of the sampled-keys DataFrame: strings, integers, or NaN/None
(`null`).  `str(v)` is the Python string conversion, defined on non-null
values. -/

/-- A cell value of a sampled-keys DataFrame. -/
inductive Value : Type
  | str (s : String)
  | num (n : ℤ)
  | null
deriving DecidableEq, Repr

/-- `str(v)` for a non-null cell (`str` of a string is itself). -/
def Value.toStr : Value → String
  | .str s => s
  | .num n => toString n
  | .null => ""

/-- `isinstance(v, str)`. -/
def Value.isStr : Value → Bool
  | .str _ => true
  | _ => false

/-- One logical row of key-column values, positionally aligned with the
key-column list. -/
abbrev KeyTuple := List Value

/-! ## Deterministic random sampling (`sampling/sampler.py`,
`SmartSampler.get_smart_random_samples`, key-selection step)

The global `random` generator is modelled as an arbitrary deterministic
generator: a state type, `seed` building a state from an integer, and
`sample(state, n, k)` drawing `k` indices from `range(n)` and returning
the advanced state.  `get_smart_random_samples` calls `random.seed(42)`
immediately before `random.sample`, discarding whatever state the global
generator had. -/
structure PRNG : Type 1 where
  State : Type
  seed : ℕ → State
  sample : State → ℕ → ℕ → List ℕ × State

/-- The key-selection step of `get_smart_random_samples`: if at most
`sample_size` distinct keys exist, use all of them; otherwise seed the
generator with the fixed seed 42 and draw `sample_size` indices
(`all_keys_df.iloc[sampled_indices]`). `rngState` is the state the global
generator happens to be in when the sampler runs. -/
def selectSampledKeys (g : PRNG) (rngState : g.State) (allKeys : List KeyTuple)
    (sample_size : ℕ) : List KeyTuple :=
  if allKeys.length ≤ sample_size then
    allKeys
  else
    let seeded := g.seed 42
    let sampled_indices := (g.sample seeded allKeys.length sample_size).1
    sampled_indices.map (fun i => allKeys.getD i [])

/-! ## SQL filter building (`sampling/query_builder.py`)

A sampled-keys DataFrame is a list of rows; row entries are positionally
aligned with the (normalized) key-column list, mirroring
`row[key_columns[i]]` / `sampled_keys_df[key_columns[0]]`.  The
normalized→original Domo name mapping is an association list.  A raised
exception is an `Except.error`. -/

instance {ε α : Type} [DecidableEq ε] [DecidableEq α] : DecidableEq (Except ε α) :=
  fun x y =>
    match x, y with
    | .ok a, .ok b =>
        if h : a = b then .isTrue (by rw [h]) else .isFalse (by simp [h])
    | .error e, .error f =>
        if h : e = f then .isTrue (by rw [h]) else .isFalse (by simp [h])
    | .ok _, .error _ => .isFalse (by simp)
    | .error _, .ok _ => .isFalse (by simp)

/-- `escape_domo_column_name`: wrap in double quotes when the name has a
character outside `[a-zA-Z0-9_]`. -/
def escape_domo_column_name (column_name : String) : String :=
  if column_name.toList.any (fun c => !(c.isAlphanum || c = '_')) then
    "\"" ++ column_name ++ "\""
  else column_name

/-- `str(v).replace("'", "''")`: double every single-quote character. -/
def escapeQuotes (s : String) : String :=
  String.mk (s.toList.flatMap (fun c => if c = '\'' then ['\'', '\''] else [c]))

/-- `value.strip() == ''`: the string is empty or all whitespace. -/
def isBlank (s : String) : Bool := s.toList.all isSpaceChar

/-- Map normalized key columns back to original Domo names, falling back
to the normalized name when the mapping has no entry. -/
def domoKeyColumns (mapping : List (String × String)) (key_columns : List String) :
    List String :=
  key_columns.map (fun k => ((mapping.lookup k).getD k))

/-- The values of the single key column, with nulls dropped:
`sampled_keys_df[key_columns[0]].dropna().tolist()`. -/
def singleColumnValues (rows : List KeyTuple) : List Value :=
  (rows.map (fun r => r.getD 0 .null)).filter (· ≠ .null)

/-- One conjunct of `build_or_where_clause` for a Domo column/value pair. -/
def domoCondition (col : String) (v : Value) : String :=
  match v with
  | .null => col ++ " IS NULL"
  | .str s =>
      if isBlank s then "(" ++ col ++ " = '' OR " ++ col ++ " IS NULL)"
      else col ++ " = '" ++ escapeQuotes s ++ "'"
  | .num n => col ++ " = " ++ toString n

/-- `QueryBuilder.build_or_where_clause`. -/
def build_or_where_clause (mapping : List (String × String)) (rows : List KeyTuple)
    (key_columns : List String) : String :=
  let cols := domoKeyColumns mapping key_columns
  String.intercalate " OR " (rows.map (fun row =>
    "(" ++ String.intercalate " AND " ((List.range cols.length).map (fun i =>
      domoCondition (escape_domo_column_name (cols.getD i "")) (row.getD i .null)))
      ++ ")"))

/-- `QueryBuilder.build_efficient_where_clause`. -/
def build_efficient_where_clause (mapping : List (String × String))
    (rows : List KeyTuple) (key_columns : List String) : Except String String :=
  if rows.isEmpty then .error "No sampled keys provided"
  else
    let cols := domoKeyColumns mapping key_columns
    if cols.length = 1 then
      let col := cols.getD 0 ""
      let values := singleColumnValues rows
      let escaped_values :=
        if values.all Value.isStr then
          values.map (fun v => "'" ++ escapeQuotes v.toStr ++ "'")
        else
          values.map Value.toStr
      .ok (escape_domo_column_name col ++ " IN ("
            ++ String.intercalate ", " escaped_values ++ ")")
    else
      .ok (build_or_where_clause mapping rows key_columns)

/-- One conjunct of `build_snowflake_or_where_clause` (every non-null value
is rendered as a string). -/
def snowflakeCondition (col : String) (v : Value) : String :=
  match v with
  | .null => col ++ " IS NULL"
  | _ =>
      let escaped := escapeQuotes v.toStr
      if isBlank escaped then "(" ++ col ++ " = '' OR " ++ col ++ " IS NULL)"
      else col ++ " = '" ++ escaped ++ "'"

/-- `QueryBuilder.build_snowflake_or_where_clause`. -/
def build_snowflake_or_where_clause (rows : List KeyTuple)
    (key_columns : List String) : String :=
  String.intercalate " OR " (rows.map (fun row =>
    "(" ++ String.intercalate " AND " ((List.range key_columns.length).map (fun i =>
      snowflakeCondition (transform_column_name (key_columns.getD i ""))
        (row.getD i .null))) ++ ")"))

/-- `QueryBuilder.build_snowflake_where_clause` (single-column path always
treats values as strings, "para evitar problemas de conversión de tipos"). -/
def build_snowflake_where_clause (rows : List KeyTuple)
    (key_columns : List String) : Except String String :=
  if rows.isEmpty then .error "No sampled keys provided"
  else
    if key_columns.length = 1 then
      let col := key_columns.getD 0 ""
      let normalized_col := transform_column_name col
      let values := singleColumnValues rows
      let escaped_values := values.map (fun v => "'" ++ escapeQuotes v.toStr ++ "'")
      .ok (normalized_col ++ " IN (" ++ String.intercalate ", " escaped_values ++ ")")
    else
      .ok (build_snowflake_or_where_clause rows key_columns)


/-! ## Batched retrieval (`sampling/batch_processor.py`,
`BatchProcessor.process_batches`)

The two external systems are modelled as functions from a batch of keys to
either a raised exception (`Except.error`) or the retrieved rows; a `None`
or empty DataFrame is the empty row list (`_get_batch_data` converts both
to an empty DataFrame).  Alongside the result we count how many fetches
were attempted against each system. -/

/-- A retrieved data row (opaque payload). -/
abbrev Row := List Value

/-- The outcome of `process_batches` together with the number of fetch
calls issued to Domo and to Snowflake. -/
abbrev BatchOutcome := Except String (List Row × List Row) × ℕ × ℕ

/-- Chunking worker, structurally recursive on a fuel bound (the fuel is
always at least the list length, so the `0, _ :: _` case is unreachable). -/
def chunksAux : ℕ → List KeyTuple → List (List KeyTuple)
  | _, [] => []
  | 0, _ :: _ => []
  | fuel + 1, a :: t => (a :: t.take 49) :: chunksAux fuel (t.drop 49)

/-- `for i in range(0, len(sampled_keys_df), max_batch_size)` with
`iloc[i:i+max_batch_size]`: split into chunks of 50. -/
def chunks50 (l : List KeyTuple) : List (List KeyTuple) :=
  chunksAux l.length l

/-- The batch loop of `process_batches` (multi-batch path): fetch from
Domo then Snowflake (an exception in either stops everything), abort on a
first batch with an empty side, abort on a later batch empty on both
sides, and otherwise accumulate the non-empty sides (`domo_dfs`,
`sf_dfs`). -/
def runBatches (fetchD fetchS : List KeyTuple → Except String (List Row)) :
    List (List KeyTuple) → Bool → List (List Row) → List (List Row) → ℕ → ℕ →
    Except String (List (List Row) × List (List Row)) × ℕ × ℕ
  | [], _, accD, accS, nd, ns => (.ok (accD, accS), nd, ns)
  | batch :: rest, isFirst, accD, accS, nd, ns =>
    match fetchD batch with
    | .error e => (.error ("Error executing Domo query: " ++ e), nd + 1, ns)
    | .ok dRows =>
      match fetchS batch with
      | .error e => (.error ("Error executing Snowflake query: " ++ e), nd + 1, ns + 1)
      | .ok sRows =>
        let hasD := !dRows.isEmpty
        let hasS := !sRows.isEmpty
        if isFirst && (!hasD || !hasS) then
          (.error "FIRST BATCH FAILURE - stopping immediately", nd + 1, ns + 1)
        else if !isFirst && !hasD && !hasS then
          (.error "Batch failed: No data from either source - stopping process",
            nd + 1, ns + 1)
        else
          runBatches fetchD fetchS rest false
            (accD ++ if hasD then [dRows] else [])
            (accS ++ if hasS then [sRows] else [])
            (nd + 1) (ns + 1)

/-- Final emptiness checks shared by both paths of `process_batches`
(lines 156–159): raise if either combined side is empty. -/
def finalCheck (d s : List Row) (nd ns : ℕ) : BatchOutcome :=
  if d.isEmpty then
    (.error "No data returned from Domo with sampled keys", nd, ns)
  else if s.isEmpty then
    (.error "No data returned from Snowflake with sampled keys", nd, ns)
  else (.ok (d, s), nd, ns)

/-- `BatchProcessor.process_batches`. -/
def process_batches (fetchD fetchS : List KeyTuple → Except String (List Row))
    (sampled_keys : List KeyTuple) : BatchOutcome :=
  if sampled_keys.length > 50 then
    match runBatches fetchD fetchS (chunks50 sampled_keys) true [] [] 0 0 with
    | (.error e, nd, ns) => (.error e, nd, ns)
    | (.ok (accD, accS), nd, ns) =>
      if !accD.isEmpty && !accS.isEmpty then
        finalCheck accD.flatten accS.flatten nd ns
      else (.error "No data returned from any batch", nd, ns)
  else
    match fetchD sampled_keys with
    | .error e => (.error ("Error executing Domo query: " ++ e), 1, 0)
    | .ok dRows =>
      match fetchS sampled_keys with
      | .error e => (.error ("Error executing Snowflake query: " ++ e), 1, 1)
      | .ok sRows =>
        if dRows.isEmpty || sRows.isEmpty then
          (.error "SINGLE BATCH FAILURE - stopping immediately", 1, 1)
        else finalCheck dRows sRows 1 1

/-! ## Row-count comparison (`row_count_comparator.py`)

Counts are `COUNT(*)` results (natural numbers; a failed count query is
recorded as 0).  The float percentage is modelled exactly over `ℚ`. -/

/-- The negligibility verdict of `_analyze_row_count_difference`. -/
structure NegligibleAnalysis where
  is_negligible : Bool
  percentage : ℚ
deriving DecidableEq, Repr

/-- `RowCountComparator._analyze_row_count_difference`. -/
def analyze_row_count_difference (domo_count snowflake_count : ℕ) :
    NegligibleAnalysis :=
  if domo_count = 0 ∧ snowflake_count = 0 then
    ⟨true, 0⟩
  else if domo_count = 0 ∨ snowflake_count = 0 then
    ⟨false, 100⟩
  else
    let difference := ((snowflake_count : ℤ) - (domo_count : ℤ)).natAbs
    let percentage : ℚ :=
      ((difference : ℚ) / (max domo_count snowflake_count : ℕ)) * 100
    if difference ≤ 10 then ⟨true, percentage⟩
    else if percentage ≤ 1/10 then ⟨true, percentage⟩
    else if percentage ≤ 1 ∧ max domo_count snowflake_count ≥ 10000 then
      ⟨true, percentage⟩
    else ⟨false, percentage⟩

/-- The row-count section of the report
(`RowCountComparator.compare_row_counts`, given the two counts). -/
structure RowCountComparison where
  domo_rows : ℕ
  snowflake_rows : ℕ
  difference : ℤ
  countsMatch : Bool
  negligible_analysis : NegligibleAnalysis
deriving DecidableEq, Repr

/-- `RowCountComparator.compare_row_counts` after the two `COUNT(*)`
queries returned `domo_count` and `sf_count`. -/
def compare_row_counts (domo_count sf_count : ℕ) : RowCountComparison :=
  { domo_rows := domo_count
    snowflake_rows := sf_count
    difference := (sf_count : ℤ) - (domo_count : ℤ)
    countsMatch := domo_count == sf_count
    negligible_analysis := analyze_row_count_difference domo_count sf_count }

/-! ## Schema comparison result and overall match
(`schema_comparator.py`, `dataset_comparator.py`) -/

/-- A recorded type mismatch `{column, domo_type, snowflake_type}`. -/
structure TypeMismatch where
  column : String
  domo_type : String
  snowflake_type : String
deriving DecidableEq, Repr

/-- The schema section of the report. -/
structure SchemaComparison where
  missing_in_snowflake : List String
  extra_in_snowflake : List String
  type_mismatches : List TypeMismatch
  schema_match : Bool
  error : Bool
deriving DecidableEq, Repr

/-- The successful tail of `SchemaComparator.compare_schemas`:
`schema_match = (len(missing_in_sf) == 0 and len(extra_in_sf) == 0 and
len(type_mismatches) == 0)`, no `error` key. -/
def mkSchemaComparison (missing extra : List String) (tm : List TypeMismatch) :
    SchemaComparison :=
  { missing_in_snowflake := missing
    extra_in_snowflake := extra
    type_mismatches := tm
    schema_match := missing.length == 0 && extra.length == 0 && tm.length == 0
    error := false }

/-- `SchemaComparator._get_error_schema_result`. -/
def errorSchemaComparison : SchemaComparison :=
  { missing_in_snowflake := []
    extra_in_snowflake := []
    type_mismatches := []
    schema_match := false
    error := true }

/-- The data section of the report (`DataComparator.compare_data_samples`):
`data_match` is `comparison.matches()` from datacompy on the success path
and `False` on every error path, which also sets `error`. -/
structure DataComparison where
  data_match : Bool
  error : Bool
deriving DecidableEq, Repr

/-- `DatasetComparator.generate_report`, overall-match computation
(lines 205–213): `overall_match` starts `False`; only when neither the
schema comparison nor the data comparison reports an error is it set to
`schema_match and (row-count match or negligible) and data_match`. -/
def overall_match (sc : SchemaComparison) (rc : RowCountComparison)
    (dc : DataComparison) : Bool :=
  if !sc.error && !dc.error then
    sc.schema_match
      && (rc.countsMatch || rc.negligible_analysis.is_negligible)
      && dc.data_match
  else false

/-! ## Auxiliary predicates and concrete instances used by the
verification -/

/-- No two adjacent underscores. -/
def NoDoubleUnderscore (l : List Char) : Prop :=
  List.Chain' (fun a b => ¬(a = '_' ∧ b = '_')) l

/-- The first and last characters are not underscores. -/
def NoEdgeUnderscore (l : List Char) : Prop :=
  l.head? ≠ some '_' ∧ l.getLast? ≠ some '_'

/-- A character class satisfied by every character the normalization
pipeline can output: not an ASCII capital, not a separator, not `#`, not
`&`. -/
abbrev GoodChar (c : Char) : Prop :=
  ¬('A' ≤ c ∧ c ≤ 'Z') ∧ c ∉ sepChars ∧ c ≠ '#' ∧ c ≠ '&'

/-- The rows a fetch function yields for a batch (empty on an
exception). -/
def rowsOf (fetch : List KeyTuple → Except String (List Row))
    (b : List KeyTuple) : List Row :=
  match fetch b with
  | .ok r => r
  | .error _ => []

/-- Modelled from the spec: "Single key column: build an `IN (...)` list;
literal-escape string values (double embedded quote characters); do not
quote numeric values."  Used only to compare the spec's wording with the
implementation. -/
def specSingleColumnInClause (col : String) (values : List Value) : String :=
  col ++ " IN (" ++ String.intercalate ", " (values.map (fun v =>
    match v with
    | .str s => "'" ++ escapeQuotes s ++ "'"
    | .num n => toString n
    | .null => "")) ++ ")"

/-- A concrete linear-congruential stand-in generator, used to witness the
generator-independent sampling theorems. -/
def lcgPRNG : PRNG where
  State := ℕ
  seed n := n
  sample s n k := ((List.range k).map (fun i => (s + 7 * i) % (n + 1)), s + k)

/-- 51 sampled keys (so that the batched path with two batches is taken). -/
def keys51 : List KeyTuple := (List.range 51).map (fun i => [Value.num i])

/-- 3 sampled keys (so that the single-batch path is taken). -/
def keys3 : List KeyTuple := [[Value.num 0], [Value.num 1], [Value.num 2]]

/-- A fetch function that always returns no rows. -/
def fetchEmpty : List KeyTuple → Except String (List Row) := fun _ => .ok []

/-- A fetch function returning a row only for the batch starting at key 0
(so the second batch of `keys51` comes back empty on this side). -/
def fetchFirstOnly (b : List KeyTuple) : Except String (List Row) :=
  if b.headD [] = [Value.num 0] then .ok [[Value.num 0]] else .ok []

/-- A fetch function that always returns one row. -/
def fetchConst (_ : List KeyTuple) : Except String (List Row) :=
  .ok [[Value.num 99]]

/-! ## Character-level facts about ASCII case mapping -/

theorem char_le_iff_toNat (a b : Char) : a ≤ b ↔ a.toNat ≤ b.toNat := by
  rw [Char.le_def, Char.toNat, Char.toNat, UInt32.le_def, BitVec.le_def]
  rfl

theorem char_toNat_ofNat {n : ℕ} (h : n.isValidChar) : (Char.ofNat n).toNat = n := by
  simp [Char.ofNat, h, Char.ofNatAux, Char.toNat, UInt32.toNat, BitVec.toNat_ofNatLt]

theorem toNat_ucA : 'A'.toNat = 65 := rfl

theorem toNat_ucZ : 'Z'.toNat = 90 := rfl

theorem toNat_lca : 'a'.toNat = 97 := rfl

theorem toNat_lcz : 'z'.toNat = 122 := rfl

/-- Lower-casing never produces an ASCII capital letter. -/
theorem notUpper_lowerChar (c : Char) : ¬('A' ≤ lowerChar c ∧ lowerChar c ≤ 'Z') := by
  unfold lowerChar
  split
  · rename_i h
    rw [char_le_iff_toNat, char_le_iff_toNat, toNat_ucA, toNat_ucZ] at h ⊢
    have hv : (c.toNat + 32).isValidChar := by
      left
      omega
    rw [char_toNat_ofNat hv]
    omega
  · assumption

/-- Lower-casing after upper-casing fixes every character that is not an
ASCII capital letter. -/
theorem lower_upper_id (c : Char) (h : ¬('A' ≤ c ∧ c ≤ 'Z')) :
    lowerChar (upperChar c) = c := by
  rw [char_le_iff_toNat, char_le_iff_toNat, toNat_ucA, toNat_ucZ] at h
  unfold upperChar
  split
  · rename_i hl
    rw [char_le_iff_toNat, char_le_iff_toNat, toNat_lca, toNat_lcz] at hl
    have hv : (c.toNat - 32).isValidChar := by
      left
      omega
    unfold lowerChar
    rw [if_pos]
    · rw [char_toNat_ofNat hv]
      have h32 : c.toNat - 32 + 32 = c.toNat := by omega
      rw [h32, Char.ofNat_toNat]
    · rw [char_le_iff_toNat, char_le_iff_toNat, char_toNat_ofNat hv, toNat_ucA,
        toNat_ucZ]
      omega
  · unfold lowerChar
    rw [if_neg]
    rw [char_le_iff_toNat, char_le_iff_toNat, toNat_ucA, toNat_ucZ]
    omega

/-! ## Structural facts about the normalization pipeline -/

/-- Characters produced by the `no.` rewrite pass come from the input or
from the replacement text (or are a flushed `n`/`o`). -/
theorem mem_replaceNoDotAux {c : Char} :
    ∀ (st : NoScanState) (l : List Char), c ∈ replaceNoDotAux st l →
      c ∈ l ∨ c ∈ ['n', 'u', 'm', 'b', 'e', 'r', '_', 'o'] := by
  have hnum : "number_".toList = ['n', 'u', 'm', 'b', 'e', 'r', '_'] := rfl
  intro st l
  induction st, l using replaceNoDotAux.induct with
  | case1 b =>
      intro h
      simp [replaceNoDotAux] at h
  | case2 =>
      intro h
      simp only [replaceNoDotAux, List.mem_singleton] at h
      simp [h]
  | case3 =>
      intro h
      simp only [replaceNoDotAux] at h ⊢
      simp at h ⊢
      tauto
  | case4 =>
      intro h
      simp [replaceNoDotAux] at h
  | case5 b ch t hcond ih =>
      intro h
      simp only [replaceNoDotAux] at h
      rw [if_pos hcond] at h
      rcases ih h with h' | h'
      · exact Or.inl (List.mem_cons_of_mem _ h')
      · exact Or.inr h'
  | case6 b ch t hcond ih =>
      intro h
      simp only [replaceNoDotAux] at h
      rw [if_neg hcond] at h
      rcases List.mem_cons.mp h with h' | h'
      · exact Or.inl (h' ▸ List.mem_cons_self _ _)
      · rcases ih h' with h'' | h''
        · exact Or.inl (List.mem_cons_of_mem _ h'')
        · exact Or.inr h''
  | case7 t ih =>
      intro h
      simp only [replaceNoDotAux, if_pos rfl] at h
      rcases ih h with h' | h'
      · exact Or.inl (List.mem_cons_of_mem _ h')
      · exact Or.inr h'
  | case8 ch t hne ih =>
      intro h
      simp only [replaceNoDotAux] at h
      rw [if_neg hne] at h
      rcases List.mem_cons.mp h with h' | h'
      · subst h'
        simp
      · rcases List.mem_cons.mp h' with h'' | h''
        · exact Or.inl (h'' ▸ List.mem_cons_self _ _)
        · rcases ih h'' with h3 | h3
          · exact Or.inl (List.mem_cons_of_mem _ h3)
          · exact Or.inr h3
  | case9 t ih =>
      intro h
      simp only [replaceNoDotAux, if_pos rfl] at h
      rcases List.mem_append.mp h with h' | h'
      · rw [hnum] at h'
        right
        simp only [List.mem_cons, List.mem_singleton] at h' ⊢
        tauto
      · rcases ih h' with h'' | h''
        · exact Or.inl (List.mem_cons_of_mem _ h'')
        · exact Or.inr h''
  | case10 ch t hne ih =>
      intro h
      simp only [replaceNoDotAux] at h
      rw [if_neg hne] at h
      rcases List.mem_cons.mp h with h' | h'
      · subst h'
        simp
      · rcases List.mem_cons.mp h' with h'' | h''
        · subst h''
          simp
        · rcases List.mem_cons.mp h'' with h3 | h3
          · exact Or.inl (h3 ▸ List.mem_cons_self _ _)
          · rcases ih h3 with h4 | h4
            · exact Or.inl (List.mem_cons_of_mem _ h4)
            · exact Or.inr h4
  | case11 ch t hsp ih =>
      intro h
      simp only [replaceNoDotAux] at h
      rw [if_pos hsp] at h
      rcases ih h with h' | h'
      · exact Or.inl (List.mem_cons_of_mem _ h')
      · exact Or.inr h'
  | case12 t hsp ih =>
      intro h
      simp only [replaceNoDotAux] at h
      rw [if_neg hsp] at h
      simp only [if_true] at h
      rcases ih h with h' | h'
      · exact Or.inl (List.mem_cons_of_mem _ h')
      · exact Or.inr h'
  | case13 ch t hsp hne ih =>
      intro h
      simp only [replaceNoDotAux] at h
      rw [if_neg hsp, if_neg hne] at h
      rcases List.mem_cons.mp h with h' | h'
      · exact Or.inl (h' ▸ List.mem_cons_self _ _)
      · rcases ih h' with h'' | h''
        · exact Or.inl (List.mem_cons_of_mem _ h'')
        · exact Or.inr h''

/-- Characters produced by the `#`/`&` expansion come from the input (and
are not `#`/`&`) or from the replacement words. -/
theorem mem_flatMap_expandSpecial {c : Char} {l : List Char}
    (h : c ∈ l.flatMap expandSpecial) :
    (c ∈ l ∧ c ≠ '#' ∧ c ≠ '&') ∨ c ∈ "numberad".toList := by
  rw [List.mem_flatMap] at h
  obtain ⟨a, ha, hc⟩ := h
  unfold expandSpecial at hc
  have h1 : "number".toList = ['n', 'u', 'm', 'b', 'e', 'r'] := rfl
  have h2 : "and".toList = ['a', 'n', 'd'] := rfl
  have h3 : "numberad".toList = ['n', 'u', 'm', 'b', 'e', 'r', 'a', 'd'] := rfl
  split at hc
  · right
    rw [h1] at hc
    rw [h3]
    simp_all
    tauto
  · split at hc
    · right
      rw [h2] at hc
      rw [h3]
      simp_all
      tauto
    · simp only [List.mem_singleton] at hc
      subst hc
      left
      simp_all

/-- Characters after the separator replacement are `_` or non-separator
input characters. -/
theorem mem_map_sepToUnderscore {c : Char} {l : List Char}
    (h : c ∈ l.map sepToUnderscore) : c = '_' ∨ (c ∈ l ∧ c ∉ sepChars) := by
  rw [List.mem_map] at h
  obtain ⟨a, ha, hc⟩ := h
  unfold sepToUnderscore at hc
  split at hc
  · left
    exact hc.symm
  · right
    subst hc
    exact ⟨ha, by assumption⟩

/-- Underscore collapsing only removes characters. -/
theorem mem_collapseUnderscores {c : Char} {l : List Char}
    (h : c ∈ collapseUnderscores l) : c ∈ l := by
  induction l using collapseUnderscores.induct with
  | case1 => simpa [collapseUnderscores] using h
  | case2 d => simpa [collapseUnderscores] using h
  | case3 d e t hde ih =>
      rw [collapseUnderscores] at h
      simp only [hde, if_true] at h
      simp [ih h]
  | case4 d e t hde ih =>
      rw [collapseUnderscores] at h
      simp only [if_neg hde] at h
      rcases List.mem_cons.mp h with h | h
      · simp [h]
      · simp [ih h]

/-- Underscore stripping only removes characters. -/
theorem mem_stripUnderscores {c : Char} {l : List Char}
    (h : c ∈ stripUnderscores l) : c ∈ l := by
  unfold stripUnderscores at h
  rw [List.mem_reverse] at h
  have h2 := (List.dropWhile_sublist (· = '_')).mem h
  rw [List.mem_reverse] at h2
  exact (List.dropWhile_sublist (· = '_')).mem h2

/-- The `no.` pass is the identity on dot-free input (flushing any pending
partial match in front). -/
theorem replaceNoDotAux_eq_of_noDot {l : List Char} (h : '.' ∉ l) :
    (∀ b, replaceNoDotAux (.plain b) l = l) ∧
      replaceNoDotAux .seenN l = 'n' :: l ∧
      replaceNoDotAux .seenNO l = 'n' :: 'o' :: l := by
  induction l with
  | nil => exact ⟨fun b => rfl, rfl, rfl⟩
  | cons c t ih =>
      have hct : c ≠ '.' := fun hc => h (hc ▸ List.mem_cons_self _ _)
      have ht : '.' ∉ t := fun hm => h (List.mem_cons_of_mem _ hm)
      obtain ⟨ihp, ihn, ihno⟩ := ih ht
      refine ⟨fun b => ?_, ?_, ?_⟩
      · simp only [replaceNoDotAux]
        split
        · rename_i hc
          simp only [Bool.and_eq_true, Bool.not_eq_true', decide_eq_true_eq] at hc
          rw [ihn, hc.2]
        · rw [ihp]
      · simp only [replaceNoDotAux]
        split
        · rename_i hc
          rw [ihno, hc]
        · rw [ihp]
      · simp only [replaceNoDotAux]
        rw [if_neg hct, ihp]

/-- The `#`/`&` expansion is the identity when neither token occurs. -/
theorem flatMap_expandSpecial_eq {l : List Char}
    (h : ∀ c ∈ l, c ≠ '#' ∧ c ≠ '&') : l.flatMap expandSpecial = l := by
  induction l with
  | nil => rfl
  | cons c t ih =>
      have hc := h c (List.mem_cons_self _ _)
      rw [List.flatMap_cons, ih (fun d hd => h d (List.mem_cons_of_mem _ hd))]
      unfold expandSpecial
      rw [if_neg hc.1, if_neg hc.2]
      rfl

/-- The separator replacement is the identity on separator-free input. -/
theorem map_sepToUnderscore_eq {l : List Char} (h : ∀ c ∈ l, c ∉ sepChars) :
    l.map sepToUnderscore = l := by
  conv_rhs => rw [← List.map_id l]
  exact List.map_congr_left fun a ha => by
    unfold sepToUnderscore
    rw [if_neg (h a ha)]
    rfl

/-- Underscore collapsing preserves the head character. -/
theorem head?_collapseUnderscores (l : List Char) :
    (collapseUnderscores l).head? = l.head? := by
  induction l using collapseUnderscores.induct with
  | case1 => rfl
  | case2 d => rfl
  | case3 d e t hde ih =>
      rw [collapseUnderscores]
      simp only [hde, if_true]
      rw [ih]
      simp only [Bool.and_eq_true, decide_eq_true_eq] at hde
      rw [List.head?_cons, List.head?_cons, hde.1, hde.2]
  | case4 d e t hde ih =>
      rw [collapseUnderscores, if_neg hde]
      rfl

/-- Underscore collapsing leaves no two adjacent underscores. -/
theorem noDD_collapseUnderscores (l : List Char) :
    NoDoubleUnderscore (collapseUnderscores l) := by
  induction l using collapseUnderscores.induct with
  | case1 => exact List.chain'_nil
  | case2 d => exact List.chain'_singleton d
  | case3 d e t hde ih =>
      rw [collapseUnderscores]
      simpa only [hde, if_true] using ih
  | case4 d e t hde ih =>
      rw [collapseUnderscores, if_neg hde]
      rw [NoDoubleUnderscore, List.chain'_cons']
      refine ⟨fun y hy => ?_, ih⟩
      rw [head?_collapseUnderscores, List.head?_cons, Option.mem_def,
        Option.some_inj] at hy
      subst hy
      simp only [Bool.and_eq_true, decide_eq_true_eq] at hde
      tauto

/-- Underscore collapsing is the identity when no two adjacent underscores
exist. -/
theorem collapseUnderscores_eq_of_noDD {l : List Char}
    (h : NoDoubleUnderscore l) : collapseUnderscores l = l := by
  induction l using collapseUnderscores.induct with
  | case1 => rfl
  | case2 d => rfl
  | case3 d e t hde ih =>
      exfalso
      simp only [Bool.and_eq_true, decide_eq_true_eq] at hde
      exact (List.chain'_cons.mp h).1 hde
  | case4 d e t hde ih =>
      rw [collapseUnderscores, if_neg hde, ih (List.chain'_cons.mp h).2]

/-- `Chain'` survives `dropWhile`. -/
theorem chain'_dropWhile {α : Type} {R : α → α → Prop} {p : α → Bool}
    {l : List α} (h : List.Chain' R l) : List.Chain' R (l.dropWhile p) := by
  induction l with
  | nil => exact h
  | cons a t ih =>
      rw [List.dropWhile_cons]
      split
      · exact ih h.tail
      · exact h

/-- No-adjacent-underscores survives `reverse`. -/
theorem noDD_reverse {l : List Char} (h : NoDoubleUnderscore l) :
    NoDoubleUnderscore l.reverse := by
  rw [NoDoubleUnderscore, List.chain'_reverse]
  exact h.imp fun a b hab => by
    unfold flip
    tauto

/-- No-adjacent-underscores survives underscore stripping. -/
theorem noDD_stripUnderscores {l : List Char} (h : NoDoubleUnderscore l) :
    NoDoubleUnderscore (stripUnderscores l) :=
  noDD_reverse (chain'_dropWhile (noDD_reverse (chain'_dropWhile h)))

theorem dropWhile_underscore_eq {l : List Char} (h : l.head? ≠ some '_') :
    l.dropWhile (· = '_') = l := by
  cases l with
  | nil => rfl
  | cons c t =>
      rw [List.head?_cons, ne_eq, Option.some_inj] at h
      rw [List.dropWhile_cons, if_neg (by simpa using h)]

/-- Underscore stripping is the identity when neither edge is an
underscore. -/
theorem stripUnderscores_eq_of_noEdge {l : List Char} (h : NoEdgeUnderscore l) :
    stripUnderscores l = l := by
  unfold stripUnderscores
  rw [dropWhile_underscore_eq h.1,
    dropWhile_underscore_eq (by rw [List.head?_reverse]; exact h.2),
    List.reverse_reverse]

/-- The head of a `dropWhile (· = '_')` result is not an underscore. -/
theorem head?_dropWhile_underscore (l : List Char) :
    (l.dropWhile (· = '_')).head? ≠ some '_' := by
  induction l with
  | nil => simp
  | cons c t ih =>
      rw [List.dropWhile_cons]
      split
      · exact ih
      · rename_i hc
        simp only [decide_eq_true_eq] at hc
        simpa using hc

/-- Underscore stripping leaves no underscore at either edge. -/
theorem noEdge_stripUnderscores (l : List Char) :
    NoEdgeUnderscore (stripUnderscores l) := by
  unfold stripUnderscores
  constructor
  · rw [List.head?_reverse]
    rcases hx : (l.dropWhile (· = '_')).reverse.dropWhile (· = '_') with _ | ⟨c, t⟩
    · simp
    · obtain ⟨pre, hpre⟩ := List.dropWhile_suffix
        (l := (l.dropWhile (· = '_')).reverse) (· = '_')
      rw [hx] at hpre
      cases hgl : (c :: t).getLast? with
      | none =>
          exact absurd (List.getLast?_eq_none_iff.mp hgl) (List.cons_ne_nil c t)
      | some x =>
          have hlast : ((l.dropWhile (· = '_')).reverse).getLast? = some x := by
            rw [← hpre, List.getLast?_append, hgl]
            rfl
          rw [List.getLast?_reverse] at hlast
          intro hcontra
          rw [Option.some_inj] at hcontra
          subst hcontra
          exact head?_dropWhile_underscore l hlast
  · rw [List.getLast?_reverse]
    exact head?_dropWhile_underscore _

/-- Every character of `transformCore s` is a `GoodChar`. -/
theorem goodChar_transformCore (s : List Char) :
    ∀ c ∈ transformCore s, GoodChar c := by
  intro c hc
  unfold transformCore at hc
  have hc1 := mem_collapseUnderscores (mem_stripUnderscores hc)
  rcases mem_map_sepToUnderscore hc1 with h | ⟨hmem, hsep⟩
  · subst h
    decide
  · rcases mem_flatMap_expandSpecial hmem with ⟨hz, hh, ha⟩ | hlit
    · refine ⟨?_, hsep, hh, ha⟩
      rcases mem_replaceNoDotAux _ _ hz with hw | hlit2
      · rw [List.mem_map] at hw
        obtain ⟨a, _, rfl⟩ := hw
        exact notUpper_lowerChar a
      · fin_cases hlit2 <;> decide
    · have h1 : "numberad".toList = ['n', 'u', 'm', 'b', 'e', 'r', 'a', 'd'] := rfl
      rw [h1] at hlit
      fin_cases hlit <;> exact ⟨by decide, hsep, by decide, by decide⟩

/-- The upper-cased output of `transformCore`, lower-cased again, is
`transformCore`'s output. -/
theorem lower_upper_transformCore (s : List Char) :
    ((transformCore s).map upperChar).map lowerChar = transformCore s := by
  rw [List.map_map]
  conv_rhs => rw [← List.map_id (transformCore s)]
  exact List.map_congr_left fun a ha =>
    lower_upper_id a (goodChar_transformCore s a ha).1

/-- `transformCore` fixes its own output. -/
theorem transformCore_upper_fixpoint (s : List Char) :
    transformCore ((transformCore s).map upperChar) = transformCore s := by
  have hgood := goodChar_transformCore s
  have hdot : '.' ∉ transformCore s := fun hc => by
    have := (hgood _ hc).2.1
    simp [sepChars] at this
  conv_lhs => rw [transformCore]
  rw [lower_upper_transformCore]
  rw [show replaceNoDot (transformCore s) = transformCore s from
    (replaceNoDotAux_eq_of_noDot hdot).1 false]
  rw [flatMap_expandSpecial_eq (fun c hc => ⟨(hgood c hc).2.2.1, (hgood c hc).2.2.2⟩)]
  rw [map_sepToUnderscore_eq (fun c hc => (hgood c hc).2.1)]
  have hnd : NoDoubleUnderscore (transformCore s) :=
    noDD_stripUnderscores (noDD_collapseUnderscores _)
  rw [collapseUnderscores_eq_of_noDD hnd]
  exact stripUnderscores_eq_of_noEdge (noEdge_stripUnderscores _)

/-- Concrete evaluations of the normalization model, matching the observed
behavior of the Python function on the same inputs (including word-boundary
and whitespace-consumption corner cases of the `no.` rewrite). -/
theorem transform_column_name_regression_checks :
    transform_column_name "Product Name" = "PRODUCT_NAME" ∧
    transform_column_name "Date Created" = "DATE_CREATED" ∧
    transform_column_name "No. 5" = "NUMBER_5" ∧
    transform_column_name "Cost & Price #2" = "COST_AND_PRICE_NUMBER2" ∧
    transform_column_name "no.no.  q" = "NUMBER_NUMBER_Q" ∧
    transform_column_name "xno.no." = "XNO_NUMBER" ∧
    transform_column_name "nono. 5" = "NONO_5" ∧
    transform_column_name "piano.x" = "PIANO_X" ∧
    transform_column_name "_no. x" = "NO_X" ∧
    transform_column_name "nno." = "NNO" ∧
    transform_column_name "No.No.5" = "NUMBER_NUMBER_5" ∧
    transform_column_name "A&B#C" = "AANDBNUMBERC" ∧
    transform_column_name "((x))" = "X" ∧
    transform_column_name "?-/." = "" ∧
    transform_column_name "no.no" = "NUMBER_NO" ∧
    transform_column_name "5no. 7" = "5NO_7" ∧
    transform_column_name "x_no. 7" = "X_NO_7" := by
  decide

/-! ## Claim theorems -/

/-- C6: evaluation of the column-name normalization at the spec's examples.
The code maps `"Sales $"` to `"SALES_$"` (no rule handles `$`), not to
`"SALES"` as both the spec and the function's own docstring state; the
`"Product Name"` example does hold. -/
theorem c6_transform_column_name_sales_dollar :
    transform_column_name "Sales $" = "SALES_$" ∧
    transform_column_name "Sales $" ≠ "SALES" ∧
    transform_column_name "Product Name" = "PRODUCT_NAME" := by
  decide

/-- C7: column-name normalization is idempotent
(`normalize(normalize(x)) = normalize(x)` for every string `x`) and pure
(equal inputs give equal outputs). -/
theorem c7_transform_column_name_idempotent :
    (∀ x : String,
      transform_column_name (transform_column_name x) = transform_column_name x) ∧
    (∀ x₁ x₂ : String, x₁ = x₂ →
      transform_column_name x₁ = transform_column_name x₂) := by
  constructor
  · intro x
    unfold transform_column_name
    rw [show (String.mk ((transformCore x.toList).map upperChar)).toList
        = (transformCore x.toList).map upperChar from rfl]
    rw [transformCore_upper_fixpoint]
  · intro x₁ x₂ h
    rw [h]

/-- Witness for C7 at concrete inputs. -/
theorem c7_witness :
    transform_column_name (transform_column_name "Product Name")
        = transform_column_name "Product Name" ∧
    transform_column_name "No. 5" = transform_column_name "No. 5" :=
  ⟨c7_transform_column_name_idempotent.1 "Product Name",
   c7_transform_column_name_idempotent.2 "No. 5" "No. 5" rfl⟩

/-- C4: `calculate_sample_size` is a pure function returning
`min(total_rows, 1000)` for `total_rows ≤ 1000`, and for `total_rows >
1000` (with the default margin 0.05 and z = 1.96) the finite-population
corrected `ceil(n0 / (1 + (n0 - 1)/total_rows))` capped at `total_rows`,
where `n0 = 1.96² · 0.5 · 0.5 / 0.05²`; at `total_rows = 10000` it is the
fixed integer 370 ≤ 10000. -/
theorem c4_calculate_sample_size_spec :
    (∀ total_rows : ℕ, total_rows ≤ 1000 →
      calculate_sample_size total_rows = min total_rows 1000) ∧
    (∀ total_rows : ℕ, total_rows > 1000 →
      calculate_sample_size total_rows =
        min (Int.toNat ⌈((196/100 : ℚ) ^ 2 * (5/10) * (5/10) / (5/100) ^ 2) /
          (1 + ((196/100 : ℚ) ^ 2 * (5/10) * (5/10) / (5/100) ^ 2 - 1)
            / (total_rows : ℚ))⌉) total_rows) ∧
    calculate_sample_size 10000 = 370 ∧ calculate_sample_size 10000 ≤ 10000 := by
  refine ⟨fun t ht => ?_, fun t ht => ?_, ?_, ?_⟩
  · unfold calculate_sample_size
    rw [if_pos ht]
  · unfold calculate_sample_size
    rw [if_neg (by omega)]
    norm_num
  · norm_num [calculate_sample_size]
    rw [show ⌈(96040000 : ℚ) / 259579⌉ = 370 by
      rw [Int.ceil_eq_iff]
      norm_num]
    rfl
  · norm_num [calculate_sample_size]

/-- Witness for C4 at concrete inputs. -/
theorem c4_witness :
    calculate_sample_size 500 = min 500 1000 ∧
    calculate_sample_size 10000 =
      min (Int.toNat ⌈((196/100 : ℚ) ^ 2 * (5/10) * (5/10) / (5/100) ^ 2) /
        (1 + ((196/100 : ℚ) ^ 2 * (5/10) * (5/10) / (5/100) ^ 2 - 1)
          / (10000 : ℚ))⌉) 10000 :=
  ⟨c4_calculate_sample_size_spec.1 500 (by decide),
   c4_calculate_sample_size_spec.2.1 10000 (by decide)⟩

/-- C5: the random key-selection step is deterministic — it ignores the
incoming global generator state because it re-seeds with the fixed seed 42
before drawing, so two runs over the same key universe and sample size
select the identical ordered keys, whatever generator is plugged in; and
when the universe has at most `sample_size` entries the whole universe is
returned. -/
theorem c5_selectSampledKeys_deterministic :
    (∀ (g : PRNG) (s₁ s₂ : g.State) (allKeys : List KeyTuple) (k : ℕ),
      selectSampledKeys g s₁ allKeys k = selectSampledKeys g s₂ allKeys k) ∧
    (∀ (g : PRNG) (s : g.State) (allKeys : List KeyTuple) (k : ℕ),
      allKeys.length ≤ k → selectSampledKeys g s allKeys k = allKeys) := by
  constructor
  · intro g s₁ s₂ allKeys k
    rfl
  · intro g s allKeys k h
    unfold selectSampledKeys
    rw [if_pos h]

/-- Witness for C5 with a concrete generator, universe and sample size. -/
theorem c5_witness :
    selectSampledKeys lcgPRNG (lcgPRNG.seed 3) [[.num 0], [.num 1], [.num 2]] 2 =
      selectSampledKeys lcgPRNG (lcgPRNG.seed 99) [[.num 0], [.num 1], [.num 2]] 2 ∧
    ([[Value.num 5]] : List KeyTuple).length ≤ 4 ∧
    selectSampledKeys lcgPRNG (lcgPRNG.seed 0) [[.num 5]] 4 = [[.num 5]] :=
  ⟨c5_selectSampledKeys_deterministic.1 lcgPRNG (lcgPRNG.seed 3) (lcgPRNG.seed 99) _ 2,
   by decide,
   c5_selectSampledKeys_deterministic.2 lcgPRNG (lcgPRNG.seed 0) _ 4 (by decide)⟩

/-- C9 counterexample: at counts (0, 5) the absolute difference is 5 ≤ 10,
which the claim says is always negligible, but the code's one-empty-side
guard classifies it as not negligible. -/
theorem c9_counterexample :
    (analyze_row_count_difference 0 5).is_negligible = false ∧
    ((5 : ℤ) - (0 : ℤ)).natAbs ≤ 10 := by
  decide

/-- C9 (amended): when both counts are zero the difference is negligible;
when exactly one count is zero it is never negligible (regardless of the
thresholds); when both counts are positive, it is negligible iff the
absolute difference is ≤ 10, or the percentage difference over the larger
count is ≤ 0.1%, or it is ≤ 1.0% and the larger count is ≥ 10000. -/
theorem c9_analyze_row_count_difference_correct (a b : ℕ) :
    (a = 0 ∧ b = 0 → (analyze_row_count_difference a b).is_negligible = true) ∧
    (¬(a = 0 ∧ b = 0) → (a = 0 ∨ b = 0) →
      (analyze_row_count_difference a b).is_negligible = false) ∧
    (a ≠ 0 → b ≠ 0 →
      ((analyze_row_count_difference a b).is_negligible = true ↔
        (((b : ℤ) - (a : ℤ)).natAbs ≤ 10 ∨
          ((((b : ℤ) - (a : ℤ)).natAbs : ℚ) / ((max a b : ℕ) : ℚ) * 100 ≤ 1/10) ∨
          ((((b : ℤ) - (a : ℤ)).natAbs : ℚ) / ((max a b : ℕ) : ℚ) * 100 ≤ 1 ∧
            10000 ≤ max a b)))) := by
  refine ⟨fun h => ?_, fun hn ho => ?_, fun ha hb => ?_⟩
  · unfold analyze_row_count_difference
    rw [if_pos h]
  · unfold analyze_row_count_difference
    rw [if_neg hn, if_pos ho]
  · have hn : ¬(a = 0 ∧ b = 0) := by tauto
    have ho : ¬(a = 0 ∨ b = 0) := by tauto
    simp only [analyze_row_count_difference, if_neg hn, if_neg ho]
    split_ifs with h1 h2 h3 <;> simp_all <;> tauto

/-- Witness for C9: the spec's own test points, (100000, 100090) negligible
and (50, 65) not. -/
theorem c9_witness :
    (analyze_row_count_difference 100000 100090).is_negligible = true ∧
    (analyze_row_count_difference 50 65).is_negligible = false := by
  constructor
  · exact ((c9_analyze_row_count_difference_correct 100000 100090).2.2
      (by decide) (by decide)).mpr (by norm_num)
  · have h := (c9_analyze_row_count_difference_correct 50 65).2.2
      (by decide) (by decide)
    rcases hb : (analyze_row_count_difference 50 65).is_negligible with _ | _
    · rfl
    · exact absurd (h.mp hb) (by norm_num)

/-- C1: `overall_match` is true iff the schema comparison found no missing
columns, no extra columns and no type mismatches, the two row counts are
equal or their difference is negligible, and the data comparison found a
match — and it is false whenever the schema comparison or the data
comparison reports an error. -/
theorem c1_overall_match_iff :
    (∀ (missing extra : List String) (tm : List TypeMismatch)
        (dCount sCount : ℕ) (dc : DataComparison),
      overall_match (mkSchemaComparison missing extra tm)
          (compare_row_counts dCount sCount) dc = true ↔
        (missing = [] ∧ extra = [] ∧ tm = [] ∧
          (dCount = sCount ∨
            (analyze_row_count_difference dCount sCount).is_negligible = true) ∧
          dc.data_match = true ∧ dc.error = false)) ∧
    (∀ (rc : RowCountComparison) (dc : DataComparison),
      overall_match errorSchemaComparison rc dc = false) ∧
    (∀ (sc : SchemaComparison) (rc : RowCountComparison) (dc : DataComparison),
      dc.error = true → overall_match sc rc dc = false) := by
  refine ⟨?_, ?_, ?_⟩
  · intro missing extra tm dCount sCount dc
    obtain ⟨dm, de⟩ := dc
    cases de <;> cases dm <;>
      simp [overall_match, mkSchemaComparison, compare_row_counts,
        List.length_eq_zero] <;>
      tauto
  · intro rc dc
    rfl
  · intro sc rc dc h
    unfold overall_match
    rw [h]
    simp

/-- Witness for C1 at concrete sub-reports. -/
theorem c1_witness :
    overall_match (mkSchemaComparison [] [] []) (compare_row_counts 100 100)
        ⟨true, false⟩ = true ∧
    overall_match (mkSchemaComparison [] [] []) (compare_row_counts 100 100)
        ⟨true, true⟩ = false :=
  ⟨(c1_overall_match_iff.1 [] [] [] 100 100 ⟨true, false⟩).mpr
      ⟨rfl, rfl, rfl, Or.inl rfl, rfl, rfl⟩,
   c1_overall_match_iff.2.2 _ _ ⟨true, true⟩ rfl⟩

/-- Normal form of the Domo builder in the single-key-column case. -/
theorem build_efficient_single (mapping : List (String × String))
    (rows : List KeyTuple) (k : String) (hne : rows ≠ []) :
    build_efficient_where_clause mapping rows [k] =
      .ok (escape_domo_column_name ((mapping.lookup k).getD k) ++ " IN ("
        ++ String.intercalate ", "
            (if (singleColumnValues rows).all Value.isStr then
              (singleColumnValues rows).map
                (fun v => "'" ++ escapeQuotes v.toStr ++ "'")
            else (singleColumnValues rows).map Value.toStr) ++ ")") := by
  unfold build_efficient_where_clause
  rw [if_neg (by simp [List.isEmpty_iff, hne])]
  simp [domoKeyColumns]

/-- Normal form of the Snowflake builder in the single-key-column case. -/
theorem build_snowflake_single (rows : List KeyTuple) (k : String)
    (hne : rows ≠ []) :
    build_snowflake_where_clause rows [k] =
      .ok (transform_column_name k ++ " IN ("
        ++ String.intercalate ", " ((singleColumnValues rows).map
            (fun v => "'" ++ escapeQuotes v.toStr ++ "'")) ++ ")") := by
  unfold build_snowflake_where_clause
  rw [if_neg (by simp [List.isEmpty_iff, hne])]
  simp

/-- C8 counterexample: for numeric key values the warehouse builder quotes
every value as a string (`ID IN ('1', '2')`), so its output differs from
the spec's form with numeric values unquoted (`ID IN (1, 2)`). -/
theorem c8_counterexample :
    build_snowflake_where_clause [[.num 1], [.num 2]] ["ID"] ≠
      .ok (specSingleColumnInClause "ID"
        (singleColumnValues [[.num 1], [.num 2]])) := by
  decide

/-- C8 (amended): for a single key column and a non-empty sampled key set,
the source (Domo) builder produces `col IN (...)` in which — when all
non-null values are strings — every value is quoted with embedded quotes
doubled, and — when no value is a string — every value appears unquoted;
the warehouse (Snowflake) builder produces `col IN (...)` quoting every
value, numeric or string, as a string with embedded quotes doubled. -/
theorem c8_single_column_in_clause :
    (∀ (mapping : List (String × String)) (rows : List KeyTuple) (k : String),
      rows ≠ [] → (singleColumnValues rows).all Value.isStr = true →
      build_efficient_where_clause mapping rows [k] =
        .ok (escape_domo_column_name ((mapping.lookup k).getD k) ++ " IN ("
          ++ String.intercalate ", " ((singleColumnValues rows).map
              (fun v => "'" ++ escapeQuotes v.toStr ++ "'")) ++ ")")) ∧
    (∀ (mapping : List (String × String)) (rows : List KeyTuple) (k : String),
      rows ≠ [] → (singleColumnValues rows).all (fun v => !v.isStr) = true →
      build_efficient_where_clause mapping rows [k] =
        .ok (escape_domo_column_name ((mapping.lookup k).getD k) ++ " IN ("
          ++ String.intercalate ", "
              ((singleColumnValues rows).map Value.toStr) ++ ")")) ∧
    (∀ (rows : List KeyTuple) (k : String),
      rows ≠ [] →
      build_snowflake_where_clause rows [k] =
        .ok (transform_column_name k ++ " IN ("
          ++ String.intercalate ", " ((singleColumnValues rows).map
              (fun v => "'" ++ escapeQuotes v.toStr ++ "'")) ++ ")")) := by
  refine ⟨?_, ?_, ?_⟩
  · intro mapping rows k hne hall
    rw [build_efficient_single mapping rows k hne, if_pos hall]
  · intro mapping rows k hne hall
    rw [build_efficient_single mapping rows k hne]
    cases hv : (singleColumnValues rows).all Value.isStr with
    | true =>
        have hnil : singleColumnValues rows = [] := by
          cases hsv : singleColumnValues rows with
          | nil => rfl
          | cons v vs =>
              exfalso
              rw [hsv, List.all_cons, Bool.and_eq_true] at hv hall
              rcases v with s | n | _ <;> simp [Value.isStr] at hv hall
        rw [hnil]
        simp
    | false =>
        rw [if_neg (by simp [hv])]
  · exact build_snowflake_single

/-- Witness for C8 on concrete string keys, numeric keys, and the
warehouse builder. -/
theorem c8_witness :
    build_efficient_where_clause [] [[.str "a'b"], [.str "c"]] ["ID"]
        = .ok "ID IN ('a''b', 'c')" ∧
    build_efficient_where_clause [] [[.num 1], [.num 2]] ["ID"]
        = .ok "ID IN (1, 2)" ∧
    build_snowflake_where_clause [[.num 1], [.num 2]] ["ID"]
        = .ok "ID IN ('1', '2')" := by
  refine ⟨?_, ?_, ?_⟩
  · rw [c8_single_column_in_clause.1 [] [[.str "a'b"], [.str "c"]] "ID"
      (by decide) (by decide)]
    decide
  · rw [c8_single_column_in_clause.2.1 [] [[.num 1], [.num 2]] "ID"
      (by decide) (by decide)]
    decide
  · rw [c8_single_column_in_clause.2.2 [[.num 1], [.num 2]] "ID" (by decide)]
    decide

/-- Dropping a null-keyed row does not change the single-column value
list (`dropna`). -/
theorem singleColumnValues_append_null (pre post : List KeyTuple) (r : KeyTuple)
    (h : r.getD 0 .null = .null) :
    singleColumnValues (pre ++ r :: post) = singleColumnValues (pre ++ post) := by
  unfold singleColumnValues
  rw [List.map_append, List.map_cons, List.filter_append, List.filter_cons, h]
  rw [List.map_append, List.filter_append]
  simp

/-- C10: in the single-key-column path of both dialects, a sampled key
whose value is null is silently dropped from the generated `IN`-list
(inserting such a row changes nothing and no `IS NULL` condition is
produced), while the multi-column OR path emits an `IS NULL` condition for
a null key value. -/
theorem c10_null_keys_dropped :
    (∀ (mapping : List (String × String)) (k : String)
        (pre post : List KeyTuple) (r : KeyTuple),
      r.getD 0 .null = .null → pre ++ post ≠ [] →
      build_efficient_where_clause mapping (pre ++ r :: post) [k] =
        build_efficient_where_clause mapping (pre ++ post) [k]) ∧
    (∀ (k : String) (pre post : List KeyTuple) (r : KeyTuple),
      r.getD 0 .null = .null → pre ++ post ≠ [] →
      build_snowflake_where_clause (pre ++ r :: post) [k] =
        build_snowflake_where_clause (pre ++ post) [k]) ∧
    build_or_where_clause [] [[.null, .num 5]] ["A", "B"] =
      "(A IS NULL AND B = 5)" ∧
    build_snowflake_or_where_clause [[.null, .num 5]] ["A", "B"] =
      "(A IS NULL AND B = '5')" := by
  refine ⟨?_, ?_, by decide, by decide⟩
  · intro mapping k pre post r hr hne
    rw [build_efficient_single mapping _ k (by simp),
      build_efficient_single mapping _ k hne,
      singleColumnValues_append_null pre post r hr]
  · intro k pre post r hr hne
    rw [build_snowflake_single _ k (by simp),
      build_snowflake_single _ k hne,
      singleColumnValues_append_null pre post r hr]

/-- Witness for C10: a null key among numeric keys is dropped by both
single-column builders. -/
theorem c10_witness :
    build_efficient_where_clause [] [[.num 1], [.null], [.num 2]] ["ID"] =
      build_efficient_where_clause [] [[.num 1], [.num 2]] ["ID"] ∧
    build_snowflake_where_clause [[.num 1], [.null], [.num 2]] ["ID"] =
      build_snowflake_where_clause [[.num 1], [.num 2]] ["ID"] :=
  ⟨c10_null_keys_dropped.1 [] "ID" [[.num 1]] [[.num 2]] [.null]
      (by decide) (by decide),
   c10_null_keys_dropped.2.1 "ID" [[.num 1]] [[.num 2]] [.null]
      (by decide) (by decide)⟩

/-- The chunking worker ignores the exact fuel as long as it bounds the
length. -/
theorem chunksAux_congr :
    ∀ (f₁ f₂ : ℕ) (l : List KeyTuple), l.length ≤ f₁ → l.length ≤ f₂ →
      chunksAux f₁ l = chunksAux f₂ l := by
  intro f₁
  induction f₁ with
  | zero =>
      intro f₂ l h1 h2
      have : l = [] := List.length_eq_zero.mp (Nat.le_zero.mp h1)
      subst this
      cases f₂ <;> rfl
  | succ f ih =>
      intro f₂ l h1 h2
      cases l with
      | nil => cases f₂ <;> rfl
      | cons a t =>
          cases f₂ with
          | zero => simp at h2
          | succ g =>
              show (a :: t.take 49) :: chunksAux f (t.drop 49)
                  = (a :: t.take 49) :: chunksAux g (t.drop 49)
              rw [ih g (t.drop 49)
                (by rw [List.length_drop]; simp at h1; omega)
                (by rw [List.length_drop]; simp at h2; omega)]

/-- One unfolding step of the 50-key chunking. -/
theorem chunks50_cons (a : KeyTuple) (t : List KeyTuple) :
    chunks50 (a :: t) = ((a :: t).take 50) :: chunks50 ((a :: t).drop 50) := by
  show chunksAux (t.length + 1) (a :: t) = _
  rw [show chunksAux (t.length + 1) (a :: t)
      = (a :: t.take 49) :: chunksAux t.length (t.drop 49) from rfl]
  rw [List.take_succ_cons, List.drop_succ_cons]
  rw [chunksAux_congr t.length (t.drop 49).length (t.drop 49)
    (by rw [List.length_drop]; omega) (le_refl _)]
  rfl

/-- Flattening ignores empty chunks. -/
theorem flatten_filter_nonempty (l : List (List Row)) :
    (l.filter (fun x => !x.isEmpty)).flatten = l.flatten := by
  induction l with
  | nil => rfl
  | cons x t ih =>
      rw [List.filter_cons]
      cases hx : x.isEmpty with
      | true =>
          rw [List.isEmpty_iff.mp hx]
          simpa using ih
      | false => simp [ih]

/-- The batch loop, started past the first batch, with every fetch
succeeding and no batch empty on both sides, returns the concatenation of
the non-empty per-batch results and counts one fetch per system per
batch. -/
theorem runBatches_ok (fetchD fetchS : List KeyTuple → Except String (List Row)) :
    ∀ (batches : List (List KeyTuple)) (accD accS : List (List Row)) (nd ns : ℕ),
      (∀ b ∈ batches, (fetchD b).isOk = true ∧ (fetchS b).isOk = true) →
      (∀ b ∈ batches, ¬(rowsOf fetchD b = [] ∧ rowsOf fetchS b = [])) →
      runBatches fetchD fetchS batches false accD accS nd ns =
        (.ok (accD ++ (batches.map (rowsOf fetchD)).filter
              (fun x => !x.isEmpty),
            accS ++ (batches.map (rowsOf fetchS)).filter
              (fun x => !x.isEmpty)),
          nd + batches.length, ns + batches.length) := by
  intro batches
  induction batches with
  | nil =>
      intro accD accS nd ns h1 h2
      simp [runBatches]
  | cons b rest ih =>
      intro accD accS nd ns h1 h2
      obtain ⟨hD, hS⟩ := h1 b (List.mem_cons_self _ _)
      rcases hfd : fetchD b with e | dR
      · rw [hfd] at hD
        simp [Except.isOk, Except.toBool] at hD
      rcases hfs : fetchS b with e | sR
      · rw [hfs] at hS
        simp [Except.isOk, Except.toBool] at hS
      have hrd : rowsOf fetchD b = dR := by simp [rowsOf, hfd]
      have hrs : rowsOf fetchS b = sR := by simp [rowsOf, hfs]
      have hnb := h2 b (List.mem_cons_self _ _)
      rw [hrd, hrs] at hnb
      have hcond : (dR.isEmpty && sR.isEmpty) = false := by
        cases hde : dR.isEmpty with
        | false => rfl
        | true =>
            cases hse : sR.isEmpty with
            | false => rfl
            | true =>
                exact absurd ⟨List.isEmpty_iff.mp hde, List.isEmpty_iff.mp hse⟩ hnb
      have hlist : ∀ (acc : List (List Row)) (x : List Row)
          (L : List (List Row)) (p : Bool),
          (acc ++ if p then [x] else []) ++ L = acc ++ (if p then x :: L else L) := by
        intro acc x L p
        cases p <;> simp
      simp only [runBatches, hfd, hfs, Bool.false_and, Bool.not_false,
        Bool.true_and, Bool.not_not, Bool.false_eq_true, if_false]
      rw [if_neg (by simp [hcond])]
      rw [ih _ _ _ _
        (fun x hx => h1 x (List.mem_cons_of_mem _ hx))
        (fun x hx => h2 x (List.mem_cons_of_mem _ hx))]
      rw [List.map_cons, List.map_cons, hrd, hrs, List.filter_cons,
        List.filter_cons, hlist, hlist, List.length_cons]
      rw [show nd + 1 + rest.length = nd + (rest.length + 1) from by omega,
        show ns + 1 + rest.length = ns + (rest.length + 1) from by omega]

/-- C2: if the first batch (the first 50 sampled keys, or all of them when
at most 50) comes back with zero rows from both systems, `process_batches`
raises before any subsequent batch is issued: exactly one fetch was
attempted against each system. -/
theorem c2_first_batch_both_empty_failfast
    (fetchD fetchS : List KeyTuple → Except String (List Row))
    (keys : List KeyTuple)
    (hD : fetchD (keys.take 50) = .ok []) (hS : fetchS (keys.take 50) = .ok []) :
    ∃ e, process_batches fetchD fetchS keys = (.error e, 1, 1) := by
  unfold process_batches
  by_cases hlen : keys.length > 50
  · rw [if_pos hlen]
    cases keys with
    | nil => simp at hlen
    | cons a t =>
        rw [chunks50_cons]
        simp only [runBatches, hD, hS]
        exact ⟨"FIRST BATCH FAILURE - stopping immediately", by simp⟩
  · rw [if_neg hlen]
    have hk : keys.take 50 = keys := List.take_of_length_le (by omega)
    rw [hk] at hD hS
    simp only [hD, hS]
    exact ⟨"SINGLE BATCH FAILURE - stopping immediately", by simp⟩

/-- Witness for C2: 51 keys whose first batch is empty on both systems. -/
theorem c2_witness :
    ∃ e, process_batches fetchEmpty fetchEmpty keys51 = (.error e, 1, 1) :=
  c2_first_batch_both_empty_failfast fetchEmpty fetchEmpty keys51 rfl rfl

/-- C3 counterexample: a batch that is empty on exactly one side is NOT
tolerated when it is the first batch. With the Domo side empty and the
Snowflake side returning a row, the single-batch path (3 keys) raises
`SINGLE BATCH FAILURE` and the batched path (51 keys) raises
`FIRST BATCH FAILURE` on its first batch, each after one fetch per
system — contradicting the claim's "for every batch ... the call does not
raise for that batch". -/
theorem c3_counterexample :
    process_batches fetchEmpty fetchConst keys3 =
      (.error "SINGLE BATCH FAILURE - stopping immediately", 1, 1) ∧
    process_batches fetchEmpty fetchConst keys51 =
      (.error "FIRST BATCH FAILURE - stopping immediately", 1, 1) := by
  decide

/-- C3 (amended): for every batch after the first in a batched run (more
than 50 keys) in which every fetch succeeds and the first batch has rows on
both sides, a later batch that is empty on exactly one side — and no batch
empty on both sides — is tolerated and recorded, not fatal: the run does
not raise, processing continues through all batches (one fetch per system
per batch), and the non-empty side's rows of every batch appear in the
combined result. A one-sided empty first or single batch is fatal
instead (see the counterexample). -/
theorem c3_one_sided_empty_batch_tolerated
    (fetchD fetchS : List KeyTuple → Except String (List Row))
    (keys : List KeyTuple) (hlen : keys.length > 50)
    (hok : ∀ b ∈ chunks50 keys, (fetchD b).isOk = true ∧ (fetchS b).isOk = true)
    (hfirst : rowsOf fetchD (keys.take 50) ≠ [] ∧
      rowsOf fetchS (keys.take 50) ≠ [])
    (hboth : ∀ b ∈ chunks50 keys,
      ¬(rowsOf fetchD b = [] ∧ rowsOf fetchS b = [])) :
    process_batches fetchD fetchS keys =
      (.ok (((chunks50 keys).map (rowsOf fetchD)).flatten,
          ((chunks50 keys).map (rowsOf fetchS)).flatten),
        (chunks50 keys).length, (chunks50 keys).length) := by
  unfold process_batches
  rw [if_pos hlen]
  cases keys with
  | nil => simp at hlen
  | cons a t =>
      have hch := chunks50_cons a t
      have hmem0 : (a :: t).take 50 ∈ chunks50 (a :: t) := by
        rw [hch]
        exact List.mem_cons_self _ _
      obtain ⟨hD0, hS0⟩ := hok _ hmem0
      rcases hfd : fetchD ((a :: t).take 50) with e | dR
      · rw [hfd] at hD0
        simp [Except.isOk, Except.toBool] at hD0
      rcases hfs : fetchS ((a :: t).take 50) with e | sR
      · rw [hfs] at hS0
        simp [Except.isOk, Except.toBool] at hS0
      have hrd : rowsOf fetchD ((a :: t).take 50) = dR := by
        unfold rowsOf
        rw [hfd]
      have hrs : rowsOf fetchS ((a :: t).take 50) = sR := by
        unfold rowsOf
        rw [hfs]
      have hdne : dR ≠ [] := hrd ▸ hfirst.1
      have hsne : sR ≠ [] := hrs ▸ hfirst.2
      have hde : dR.isEmpty = false := by
        cases hx : dR.isEmpty with
        | false => rfl
        | true => exact absurd (List.isEmpty_iff.mp hx) hdne
      have hse : sR.isEmpty = false := by
        cases hx : sR.isEmpty with
        | false => rfl
        | true => exact absurd (List.isEmpty_iff.mp hx) hsne
      rw [hch]
      simp only [runBatches, hfd, hfs, hde, hse, Bool.not_false, Bool.not_true,
        Bool.or_self, Bool.and_false, Bool.true_and, Bool.false_eq_true,
        if_false]
      rw [runBatches_ok fetchD fetchS (chunks50 ((a :: t).drop 50)) _ _ _ _
        (fun x hx => hok x (hch ▸ List.mem_cons_of_mem _ hx))
        (fun x hx => hboth x (hch ▸ List.mem_cons_of_mem _ hx))]
      simp [finalCheck, hrd, hrs, hde, hse, flatten_filter_nonempty,
        Nat.add_comm, hdne, hsne]
      exact ⟨hrd.symm, hrs.symm⟩

/-- Witness for C3: 51 keys in two batches; the second batch is empty on
the Domo side only and its Snowflake rows still reach the combined
result. -/
theorem c3_witness :
    process_batches fetchFirstOnly fetchConst keys51 =
      (.ok ([[Value.num 0]], [[Value.num 99], [Value.num 99]]), 2, 2) := by
  have h := c3_one_sided_empty_batch_tolerated fetchFirstOnly fetchConst keys51
    (by decide) (by decide) (by decide) (by decide)
  rw [h]
  decide

end ArgoMigration
